import Mathlib

/-!
A shallow embedding of `src/fastboot.c` from the prekit repository.

The program translates a CLI token stream into an ordered queue of device
operations and hands the queue to an external execution engine.  We embed:

* the queued-operation data type (`fb_queue_*` calls become `Op` values),
* the device-matching predicate `match_fastboot`,
* the `strtoul`-based vendor-id check of the `-i` option,
* the package planner `do_flashall` (with `unzip_file` and the
  `queue_info_dump` header),
* the command loop of `main`, its deferred-reboot resolution, and the
  `devices` / `help` short-circuits.

External collaborators (filesystem, libzipfile, USB, execution engine) are
modelled as an explicit environment `Env`: `load_file` becomes a partial map
from path to byte list, `init_zipfile` a partial map from archive bytes to a
name-indexed entry map.  Byte payloads are `List Nat`; the size argument the C
code passes alongside a buffer always equals the buffer length, so sizes are
recovered as `List.length`.  Fatal `die` messages are modelled without the
`strerror(errno)` suffix, which is environment-dependent.
-/

/-- One queued device operation.  Each constructor corresponds to one
`fb_queue_*` call in the source: `fb_queue_flash`, `fb_queue_erase`,
`fb_queue_display`, `fb_queue_notice`, `fb_queue_command`,
`fb_queue_download`, `fb_queue_reboot`. -/
inductive Op where
  | Flash (partition : String) (data : List Nat)
  | Erase (partition : String)
  | Display (var label : String)
  | Notice (msg : String)
  | Command (cmd note : String)
  | Download (tag : String) (data : List Nat)
  | Reboot
deriving DecidableEq, Repr

/-- The mutable program state of `main`: the file-scope filter globals
`serial` and `vendor_id`, the two deferred-reboot flags, and the operation
queue built through the `fb_queue_*` calls. -/
structure St where
  serial : Option String
  vendor_id : Nat
  wants_reboot : Bool
  wants_reboot_bootloader : Bool
  queue : List Op
deriving DecidableEq, Repr

/-- Initial state: `serial = 0`, `vendor_id = 0`, both reboot flags clear,
empty queue. -/
def initSt : St :=
  { serial := none, vendor_id := 0, wants_reboot := false,
    wants_reboot_bootloader := false, queue := [] }

/-- How a fatal path leaves the process: `usage(); exit(1)` (the `require`
macro and the unrecognized-command branch) or `die(msg)`. -/
inductive Exit where
  | usage
  | fatal (msg : String)
deriving DecidableEq, Repr

/-- The external world: `load_file` (path to bytes), `init_zipfile`
(archive bytes to a name-indexed map of decompressed entries; `none` for an
entry covers both a failed `lookup_zipentry` and a failed
`decompress_zipentry`, since `unzip_file` returns `NULL` either way), and
`getenv("ANDROID_SERIAL")`. -/
structure Env where
  files : String → Option (List Nat)
  init_zipfile : List Nat → Option (String → Option (List Nat))
  android_serial : Option String

/-- A candidate USB interface as passed to the match callback
(`usb_ifc_info`). -/
structure UsbIfcInfo where
  dev_vendor : Nat
  ifc_class : Nat
  ifc_subclass : Nat
  ifc_protocol : Nat
  serial_number : String
  writable : Bool
deriving DecidableEq, Repr

/-- The fixed vendor-id whitelist hard-coded in `match_fastboot`:
Google, TI, Acer, Sony Ericsson, Qualcomm, Motorola, Nvidia, DELL, Intel,
HTC. -/
def whitelist : List Nat :=
  [0x18d1, 0x0451, 0x0502, 0x0fce, 0x05c6, 0x22b8, 0x0955, 0x413c, 0x8087,
   0x0bb4]

/-- `match_fastboot` from the source, with the file-scope globals
`vendor_id` and `serial` passed explicitly.  Returns `0` on match, `-1` on
reject, exactly as the C function does. -/
def match_fastboot (vendor_id : Nat) (serial : Option String)
    (info : UsbIfcInfo) : Int :=
  if ¬ (vendor_id ≠ 0 ∧ info.dev_vendor = vendor_id) ∧
     info.dev_vendor ≠ 0x18d1 ∧
     info.dev_vendor ≠ 0x0451 ∧
     info.dev_vendor ≠ 0x0502 ∧
     info.dev_vendor ≠ 0x0fce ∧
     info.dev_vendor ≠ 0x05c6 ∧
     info.dev_vendor ≠ 0x22b8 ∧
     info.dev_vendor ≠ 0x0955 ∧
     info.dev_vendor ≠ 0x413c ∧
     info.dev_vendor ≠ 0x8087 ∧
     info.dev_vendor ≠ 0x0bb4 then -1
  else if info.ifc_class ≠ 0xff then -1
  else if info.ifc_subclass ≠ 0x42 then -1
  else if info.ifc_protocol ≠ 0x03 then -1
  else
    match serial with
    | some s => if s ≠ info.serial_number then -1 else 0
    | none => 0

/-- The apostrophe character used by the `die` format strings. -/
def quoteCh : String := "\x27"

/-- `quoted s` renders a path the way the `die` format strings do. -/
def quoted (s : String) : String := quoteCh ++ s ++ quoteCh

/-- C-locale `isspace`. -/
def isSpaceC (c : Char) : Bool :=
  c = ' ' || c = '\t' || c = '\n' || c = '\x0b' || c = '\x0c' || c = '\r'

/-- The numeric value of a digit character under a given base, as `strtoul`
reads digits (decimal digits, then letters from 10 upward). -/
def digitVal (base : Nat) (c : Char) : Option Nat :=
  let d : Option Nat :=
    if '0' ≤ c ∧ c ≤ '9' then some (c.toNat - '0'.toNat)
    else if 'a' ≤ c ∧ c ≤ 'z' then some (c.toNat - 'a'.toNat + 10)
    else if 'A' ≤ c ∧ c ≤ 'Z' then some (c.toNat - 'A'.toNat + 10)
    else none
  match d with
  | some v => if v < base then some v else none
  | none => none

/-- Accumulate the longest digit run for a base.  Returns the exact
magnitude, the unconsumed rest, and whether any digit was consumed. -/
def digitsAcc (base : Nat) : List Char → Nat → Bool → Nat × List Char × Bool
  | [], acc, seen => (acc, [], seen)
  | c :: cs, acc, seen =>
    match digitVal base c with
    | some v => digitsAcc base cs (acc * base + v) true
    | none => (acc, c :: cs, seen)

/-- `ULONG_MAX` on the 64-bit targets this tool is built for. -/
def ULONG_MAX : Nat := 2 ^ 64 - 1

/-- `strtoul(s, &endptr, 0)`: skip C whitespace, optional sign, base
detection from a `0x`/`0` prefix, longest digit run, clamping to
`ULONG_MAX` on overflow, unsigned negation for a minus sign.  Returns the
value and the rest of the string from `endptr` on; when no conversion is
performed the rest is the whole input, as the C standard stores `nptr` in
`endptr`. -/
def strtoul0 (cs : List Char) : Nat × List Char :=
  let body := cs.dropWhile isSpaceC
  let signed : Bool × List Char :=
    match body with
    | '-' :: r => (true, r)
    | '+' :: r => (false, r)
    | _ => (false, body)
  let parsed : Nat × List Char × Bool :=
    match signed.2 with
    | '0' :: c :: r =>
      if c = 'x' || c = 'X' then
        let h := digitsAcc 16 r 0 false
        if h.2.2 then (h.1, h.2.1, true) else (0, c :: r, true)
      else
        digitsAcc 8 (c :: r) 0 true
    | '0' :: [] => (0, [], true)
    | s => digitsAcc 10 s 0 false
  if parsed.2.2 then
    let m := parsed.1
    let v :=
      if ULONG_MAX < m then ULONG_MAX
      else if signed.1 then (2 ^ 64 - m) % 2 ^ 64
      else m
    (v, parsed.2.1)
  else
    (0, cs)

/-- The `-i` argument check in `main`: `strtoul(arg, &endptr, 0)` must
consume the whole string (`*endptr == '\0'`) and the value must satisfy
`!(val & ~0xffff)`, i.e. fit in 16 bits.  `some v` means `vendor_id` is set
to `v`; `none` means `die("invalid vendor id ...")`. -/
def parse_i (s : String) : Option Nat :=
  let r := strtoul0 s.data
  if r.2 = [] ∧ r.1 < 0x10000 then some r.1 else none

/-- Manifest entry names, as `#define`d in the source. -/
def FW_DNX_BIN : String := "dnx.bin"

def IFWI_BIN : String := "ifwi.bin"

def NORMALOS_BIN : String := "stitch.normalos.bin"

def PREOS_BIN : String := "stitch.preos.bin"

def PLATFORM_IMG : String := "platform.img.gz"

/-- The fixed package manifest of `do_flashall`, in source order:
archive entry name paired with target partition. -/
def manifest : List (String × String) :=
  [(FW_DNX_BIN, "dnx"), (IFWI_BIN, "ifwi"), (NORMALOS_BIN, "boot"),
   (PREOS_BIN, "preos"), (PLATFORM_IMG, "platform")]

/-- `unzip_file`: look up an entry in the (already opened) archive and
return its decompressed bytes; `none` when the entry is absent or fails to
decompress. -/
def unzip_file (z : String → Option (List Nat)) (name : String) :
    Option (List Nat) :=
  z name

/-- Floor of the base-2 logarithm by structural recursion on a fuel bound
(so that it evaluates in the kernel); `log2floor fuel n` is the binade
exponent of `n` for every `1 ≤ n < 2 ^ fuel`. -/
def log2floor : Nat → Nat → Nat
  | 0, _ => 0
  | fuel + 1, n => if n < 2 then 0 else log2floor fuel (n / 2) + 1

/-- The integer significand of the IEEE-754 double nearest to the literal
`1.001`: that double equals `double1001_mant / 2 ^ 52`, which is
`1.000999999999999889...`, slightly below 1.001 (the scaled value
`1.001 * 2 ^ 52` ends in `.496` and rounds down). -/
def double1001_mant : Nat := 4508103226997866

/-- The correctly rounded significand of the value `P / 2 ^ e`: the nearest
integer, ties to even, as IEEE-754 multiplication rounds. -/
def roundSig (P e : Nat) : Nat :=
  if 2 * (P % 2 ^ e) < 2 ^ e then P / 2 ^ e
  else if 2 ^ e < 2 * (P % 2 ^ e) then P / 2 ^ e + 1
  else if (P / 2 ^ e) % 2 = 0 then P / 2 ^ e else P / 2 ^ e + 1

/-- Round the exact product value `P / 2 ^ 52` to the IEEE double of binade
exponent `e` (the representable significands there are the multiples of
`2 ^ (e - 52)`) and truncate the result to an integer, as the assignment to
`unsigned datasz` does. -/
def unzip_round (P e : Nat) : Nat :=
  if e ≤ 52 then roundSig P e / 2 ^ (52 - e) else roundSig P e * 2 ^ (e - 52)

/-- The decompression-buffer capacity computed by `unzip_file`:
`datasz = *sz * 1.001`, replayed exactly over `Nat`.  The C code converts
`*sz` to `double` (exact, since `*sz < 2 ^ 32 < 2 ^ 53`), multiplies it by
the double nearest 1.001, rounding to nearest with ties to even, and
truncates the result back to an integer: `sz * double1001_mant` over
`2 ^ 52` is the exact product, `log2floor 128 ... - 52` its binade exponent
(128 units of fuel cover every product of a 32-bit size), and `unzip_round`
performs the rounding and truncation.  In particular the capacity is 1000
at size 1000, because the stored double is just below 1.001.  The C code
then stores the value in the 32-bit `unsigned datasz`, which is the
identity for sizes below about 4.29e9 and undefined behaviour beyond, so
that final conversion is not modelled. -/
def unzip_datasz (sz : Nat) : Nat :=
  unzip_round (sz * double1001_mant) (log2floor 128 (sz * double1001_mant) - 52)

/-- The separator line `queue_info_dump` emits around its two `Display`
queries. -/
def sepLine : String := "--------------------------------------------"

/-- `queue_info_dump`: the four operations queued before any flashing. -/
def queue_info_dump : List Op :=
  [Op.Notice sepLine,
   Op.Display "preos" "Current Pre-OS Version ",
   Op.Display "ifwi" "Current IFWI Version   ",
   Op.Notice sepLine]

/-- `do_flashall fn`: the operations it appends to the queue (in order) and
the fatal exit it takes, if any.  The source appends to the global queue and
calls `die` inline; returning the append list together with an optional
`Exit` captures exactly that: on a fatal exit the already-returned prefix
has still been appended. -/
def do_flashall (env : Env) (fn : String) : List Op × Option Exit :=
  let ops := queue_info_dump
  match env.files fn with
  | none => (ops, some (Exit.fatal ("failed to load " ++ quoted fn)))
  | some zdata =>
    match env.init_zipfile zdata with
    | none => (ops, some (Exit.fatal ("failed to access zipdata in " ++ quoted fn)))
    | some z =>
      match unzip_file z FW_DNX_BIN with
      | none => (ops, some (Exit.fatal ("package missing " ++ FW_DNX_BIN)))
      | some d1 =>
        let ops := ops ++ [Op.Flash "dnx" d1]
        match unzip_file z IFWI_BIN with
        | none => (ops, some (Exit.fatal ("package missing " ++ IFWI_BIN)))
        | some d2 =>
          let ops := ops ++ [Op.Flash "ifwi" d2]
          match unzip_file z NORMALOS_BIN with
          | none => (ops, some (Exit.fatal ("package missing " ++ NORMALOS_BIN)))
          | some d3 =>
            let ops := ops ++ [Op.Flash "boot" d3]
            match unzip_file z PREOS_BIN with
            | none => (ops, some (Exit.fatal ("package missing " ++ PREOS_BIN ++ "\n")))
            | some d4 =>
              let ops := ops ++ [Op.Flash "preos" d4]
              match unzip_file z PLATFORM_IMG with
              | none => (ops, some (Exit.fatal ("package missing " ++ PLATFORM_IMG ++ "\n")))
              | some d5 => (ops ++ [Op.Flash "platform" d5], none)

/-- The command loop of `main`, one `strcmp` chain per head token, in source
order.  Returns the state after the loop together with the fatal exit taken,
if any; on a fatal exit the state still carries the queue built so far (the
globals survive, the queue is simply never executed). -/
def parse_loop (env : Env) : List String → St → St × Option Exit
  | [], st => (st, none)
  | "-s" :: s :: rest, st => parse_loop env rest { st with serial := some s }
  | "-i" :: s :: rest, st =>
    (match parse_i s with
     | none => (st, some (Exit.fatal ("invalid vendor id " ++ quoted s)))
     | some v => parse_loop env rest { st with vendor_id := v })
  | "getvar" :: v :: rest, st =>
    parse_loop env rest { st with queue := st.queue ++ [Op.Display v v] }
  | "erase" :: p :: rest, st =>
    parse_loop env rest { st with queue := st.queue ++ [Op.Erase p] }
  | "signature" :: f :: rest, st =>
    (match env.files f with
     | none => (st, some (Exit.fatal ("could not load " ++ quoted f)))
     | some d =>
       if d.length ≠ 256 then
         (st, some (Exit.fatal "signature must be 256 bytes"))
       else
         parse_loop env rest
           { st with queue := st.queue ++
               [Op.Download "signature" d,
                Op.Command "signature" "installing signature"] })
  | "reboot" :: rest, st => parse_loop env rest { st with wants_reboot := true }
  | "reboot-bootloader" :: rest, st =>
    parse_loop env rest { st with wants_reboot_bootloader := true }
  | "continue" :: rest, st =>
    parse_loop env rest
      { st with queue := st.queue ++ [Op.Command "continue" "resuming boot"] }
  | "flash" :: p :: f :: rest, st =>
    (match env.files f with
     | none => (st, some (Exit.fatal ("cannot load " ++ quoted f)))
     | some d =>
       parse_loop env rest { st with queue := st.queue ++ [Op.Flash p d] })
  | "flashall" :: f :: rest, st =>
    (match do_flashall env f with
     | (ops, some e) => ({ st with queue := st.queue ++ ops }, some e)
     | (ops, none) =>
       parse_loop env rest
         { st with queue := st.queue ++ ops, wants_reboot := true })
  | "oem" :: w :: ws, st =>
    ({ st with queue := st.queue ++
        [Op.Command (String.intercalate " " ("oem" :: w :: ws)) ""] }, none)
  | ["oem"], st => (st, none)
  | _ :: _, st => (st, some Exit.usage)

/-- The deferred-reboot resolution after the command loop:
`if (wants_reboot) fb_queue_reboot(); else if (wants_reboot_bootloader)
fb_queue_command("reboot-bootloader", ...)`. -/
def resolve_reboot (st : St) : St :=
  if st.wants_reboot then { st with queue := st.queue ++ [Op.Reboot] }
  else if st.wants_reboot_bootloader then
    { st with queue := st.queue ++
        [Op.Command "reboot-bootloader" "rebooting into bootloader"] }
  else st

/-- How `main` ends, up to the point where the queue is handed to
`open_device` / `fb_execute_queue` (both external). -/
inductive MainResult where
  | devicesListed
  | helpShown
  | usageError (st : St)
  | fatal (msg : String) (st : St)
  | run (st : St)
deriving DecidableEq, Repr

/-- `main`, after `skip(1)` removed `argv[0]`: the `devices` / `help`
short-circuits on the first token, the `ANDROID_SERIAL` default, the command
loop, and the deferred-reboot resolution.  `MainResult.run st` means the
process proceeds to device discovery and queue execution with `st.queue`. -/
def fastboot_main (env : Env) (args : List String) : MainResult :=
  match args with
  | [] => MainResult.usageError initSt
  | a :: _ =>
    if a = "devices" then MainResult.devicesListed
    else if a = "help" then MainResult.helpShown
    else
      match parse_loop env args { initSt with serial := env.android_serial } with
      | (st, some Exit.usage) => MainResult.usageError st
      | (st, some (Exit.fatal m)) => MainResult.fatal m st
      | (st, none) => MainResult.run (resolve_reboot st)

/-!
## The per-command denotation of the §4.5 table

To state that a whole well-formed command line is translated command by
command, we name the recognized fixed-arity commands (`oem`, which swallows
the rest of the line, is treated separately in its own claim) and give each
its token spelling, its side condition for not dying, and its per-table
queue effect.
-/

/-- A recognized fixed-arity command of the CLI table. -/
inductive Cmd where
  | optS (s : String)
  | optI (s : String)
  | getvar (v : String)
  | erase (p : String)
  | signature (f : String)
  | reboot
  | rebootBootloader
  | cont
  | flash (p f : String)
  | flashall (f : String)
deriving DecidableEq, Repr

/-- The token spelling of a command. -/
def Cmd.tokens : Cmd → List String
  | .optS s => ["-s", s]
  | .optI s => ["-i", s]
  | .getvar v => ["getvar", v]
  | .erase p => ["erase", p]
  | .signature f => ["signature", f]
  | .reboot => ["reboot"]
  | .rebootBootloader => ["reboot-bootloader"]
  | .cont => ["continue"]
  | .flash p f => ["flash", p, f]
  | .flashall f => ["flashall", f]

/-- The side condition under which a command does not `die`: the vendor id
parses, the named files load, the signature file is 256 bytes, the package
archive opens and contains every manifest entry. -/
def Cmd.ok (env : Env) : Cmd → Prop
  | .optI s => ∃ v, parse_i s = some v
  | .signature f => ∃ d, env.files f = some d ∧ d.length = 256
  | .flash _ f => ∃ d, env.files f = some d
  | .flashall f => ∃ zd z, env.files f = some zd ∧ env.init_zipfile zd = some z ∧
      ∀ e ∈ manifest, ∃ d, unzip_file z e.1 = some d
  | _ => True

/-- The queue effect of one command, per the §4.5 table: what it appends to
the operation queue (nothing for the filter options and the deferred
reboots). -/
def Cmd.effect (env : Env) : Cmd → List Op
  | .getvar v => [Op.Display v v]
  | .erase p => [Op.Erase p]
  | .signature f =>
    match env.files f with
    | some d => [Op.Download "signature" d,
                 Op.Command "signature" "installing signature"]
    | none => []
  | .cont => [Op.Command "continue" "resuming boot"]
  | .flash p f =>
    match env.files f with
    | some d => [Op.Flash p d]
    | none => []
  | .flashall f => (do_flashall env f).1
  | _ => []

/-- Whether a command sets the plain-reboot intent (`reboot` explicitly,
`flashall` implicitly). -/
def Cmd.setsReboot : Cmd → Bool
  | .reboot => true
  | .flashall _ => true
  | _ => false

/-- Whether a command sets the reboot-to-bootloader intent. -/
def Cmd.setsRebootBootloader : Cmd → Bool
  | .rebootBootloader => true
  | _ => false

/-- The full state transition of one command, side condition granted. -/
def Cmd.apply (env : Env) : Cmd → St → St
  | .optS s, st => { st with serial := some s }
  | .optI s, st => { st with vendor_id := (parse_i s).getD st.vendor_id }
  | .reboot, st => { st with wants_reboot := true }
  | .rebootBootloader, st => { st with wants_reboot_bootloader := true }
  | .flashall f, st =>
    { st with queue := st.queue ++ (do_flashall env f).1, wants_reboot := true }
  | c, st => { st with queue := st.queue ++ Cmd.effect env c }

/-- The at-most-one trailing operation the deferred-reboot resolution
appends, as a function of the two intents. -/
def rebootTrailerFlags (wr wrb : Bool) : List Op :=
  if wr then [Op.Reboot]
  else if wrb then [Op.Command "reboot-bootloader" "rebooting into bootloader"]
  else []

/-!
## Concrete environments for witnesses and counterexamples
-/

/-- A complete package archive: all five manifest entries present. -/
def zipW : String → Option (List Nat) := fun n =>
  if n = "dnx.bin" then some [1, 2]
  else if n = "ifwi.bin" then some [3]
  else if n = "stitch.normalos.bin" then some [4, 4]
  else if n = "stitch.preos.bin" then some [5]
  else if n = "platform.img.gz" then some [6, 6, 6]
  else none

/-- A broken package archive: only `dnx.bin` is present. -/
def zipM : String → Option (List Nat) := fun n =>
  if n = "dnx.bin" then some [7] else none

/-- A 256-byte signature payload. -/
def sig256 : List Nat := List.replicate 256 0

/-- A concrete environment: a valid package `pkg.zip`, a valid signature
`sig.bin`, a short signature `short.sig`, a flashable image `boot.img`. -/
def envW : Env :=
  { files := fun fn =>
      if fn = "pkg.zip" then some [9]
      else if fn = "sig.bin" then some sig256
      else if fn = "short.sig" then some (List.replicate 255 0)
      else if fn = "boot.img" then some [1, 2, 3]
      else none,
    init_zipfile := fun zd => if zd = [9] then some zipW else none,
    android_serial := none }

/-- A concrete environment whose only archive, `bad.zip`, lacks `ifwi.bin`
and everything after it. -/
def envM : Env :=
  { files := fun fn => if fn = "bad.zip" then some [8] else none,
    init_zipfile := fun zd => if zd = [8] then some zipM else none,
    android_serial := none }

/-- The state after `parse_loop envW ["reboot", "flashall", "pkg.zip"]`:
full plan queued, plain-reboot intent set twice over. -/
def stC5 : St :=
  { serial := none, vendor_id := 0, wants_reboot := true,
    wants_reboot_bootloader := false,
    queue := queue_info_dump ++
      [Op.Flash "dnx" [1, 2], Op.Flash "ifwi" [3], Op.Flash "boot" [4, 4],
       Op.Flash "preos" [5], Op.Flash "platform" [6, 6, 6]] }

/-!
## Step equations for the command loop

Each lemma unfolds one `strcmp` branch of the loop; they are the interface
the claim proofs use.
-/

theorem parse_loop_nil (env : Env) (st : St) :
    parse_loop env [] st = (st, none) := rfl

theorem parse_loop_opt_s (env : Env) (s : String) (ts : List String) (st : St) :
    parse_loop env ("-s" :: s :: ts) st =
      parse_loop env ts { st with serial := some s } := by
  cases ts <;> rfl

theorem parse_loop_opt_i (env : Env) (s : String) (ts : List String) (st : St) :
    parse_loop env ("-i" :: s :: ts) st =
      match parse_i s with
      | none => (st, some (Exit.fatal ("invalid vendor id " ++ quoted s)))
      | some v => parse_loop env ts { st with vendor_id := v } := by
  cases ts <;> rfl

theorem parse_loop_getvar (env : Env) (v : String) (ts : List String) (st : St) :
    parse_loop env ("getvar" :: v :: ts) st =
      parse_loop env ts { st with queue := st.queue ++ [Op.Display v v] } := by
  cases ts <;> rfl

theorem parse_loop_erase (env : Env) (p : String) (ts : List String) (st : St) :
    parse_loop env ("erase" :: p :: ts) st =
      parse_loop env ts { st with queue := st.queue ++ [Op.Erase p] } := by
  cases ts <;> rfl

theorem parse_loop_signature (env : Env) (f : String) (ts : List String) (st : St) :
    parse_loop env ("signature" :: f :: ts) st =
      match env.files f with
      | none => (st, some (Exit.fatal ("could not load " ++ quoted f)))
      | some d =>
        if d.length ≠ 256 then
          (st, some (Exit.fatal "signature must be 256 bytes"))
        else
          parse_loop env ts
            { st with queue := st.queue ++
                [Op.Download "signature" d,
                 Op.Command "signature" "installing signature"] } := by
  cases ts <;> rfl

theorem parse_loop_reboot (env : Env) (ts : List String) (st : St) :
    parse_loop env ("reboot" :: ts) st =
      parse_loop env ts { st with wants_reboot := true } := by
  cases ts <;> rfl

theorem parse_loop_reboot_bootloader (env : Env) (ts : List String) (st : St) :
    parse_loop env ("reboot-bootloader" :: ts) st =
      parse_loop env ts { st with wants_reboot_bootloader := true } := by
  cases ts <;> rfl

theorem parse_loop_continue (env : Env) (ts : List String) (st : St) :
    parse_loop env ("continue" :: ts) st =
      parse_loop env ts
        { st with queue := st.queue ++ [Op.Command "continue" "resuming boot"] } := by
  cases ts <;> rfl

theorem parse_loop_flash (env : Env) (p f : String) (ts : List String) (st : St) :
    parse_loop env ("flash" :: p :: f :: ts) st =
      match env.files f with
      | none => (st, some (Exit.fatal ("cannot load " ++ quoted f)))
      | some d =>
        parse_loop env ts { st with queue := st.queue ++ [Op.Flash p d] } := by
  cases ts <;> rfl

theorem parse_loop_flashall (env : Env) (f : String) (ts : List String) (st : St) :
    parse_loop env ("flashall" :: f :: ts) st =
      match do_flashall env f with
      | (ops, some e) => ({ st with queue := st.queue ++ ops }, some e)
      | (ops, none) =>
        parse_loop env ts
          { st with queue := st.queue ++ ops, wants_reboot := true } := by
  cases ts <;> rfl

theorem parse_loop_oem (env : Env) (w : String) (ws : List String) (st : St) :
    parse_loop env ("oem" :: w :: ws) st =
      ({ st with queue := st.queue ++
          [Op.Command (String.intercalate " " ("oem" :: w :: ws)) ""] }, none) := by
  cases ws <;> rfl

/-!
## Queue invariants
-/

theorem do_flashall_no_reboot (env : Env) (fn : String) :
    Op.Reboot ∉ (do_flashall env fn).1 := by
  unfold do_flashall unzip_file
  repeat' split
  all_goals simp [queue_info_dump]

/-- The command loop itself never enqueues a `Reboot` operation: `reboot`
and `flashall` only set the deferred flag. -/
theorem parse_loop_reboot_free (env : Env) (args : List String) (st : St) :
    Op.Reboot ∉ st.queue → Op.Reboot ∉ (parse_loop env args st).1.queue := by
  induction args, st using parse_loop.induct env <;>
    intro h <;>
    simp only [parse_loop] <;>
    simp_all [do_flashall_no_reboot]
  · rename_i f rest st ops e heq
    have hno := do_flashall_no_reboot env f
    rw [heq] at hno
    exact hno
  · rename_i f rest st ops heq ih
    have hno := do_flashall_no_reboot env f
    rw [heq] at hno
    exact ih hno

/-- The queue the deferred-reboot resolution produces. -/
theorem resolve_reboot_queue (st : St) :
    (resolve_reboot st).queue =
      st.queue ++ rebootTrailerFlags st.wants_reboot st.wants_reboot_bootloader := by
  unfold resolve_reboot rebootTrailerFlags
  split_ifs <;> simp

theorem rebootTrailerFlags_length (wr wrb : Bool) :
    (rebootTrailerFlags wr wrb).length ≤ 1 := by
  unfold rebootTrailerFlags
  split_ifs <;> simp

/-!
## The per-command step and fold lemmas behind the table claim
-/

theorem Cmd.apply_queue (env : Env) (c : Cmd) (st : St) :
    (Cmd.apply env c st).queue = st.queue ++ Cmd.effect env c := by
  cases c <;> simp [Cmd.apply, Cmd.effect]

theorem Cmd.apply_wr (env : Env) (c : Cmd) (st : St) :
    (Cmd.apply env c st).wants_reboot = (st.wants_reboot || Cmd.setsReboot c) := by
  cases c <;> simp [Cmd.apply, Cmd.setsReboot]

theorem Cmd.apply_wrb (env : Env) (c : Cmd) (st : St) :
    (Cmd.apply env c st).wants_reboot_bootloader =
      (st.wants_reboot_bootloader || Cmd.setsRebootBootloader c) := by
  cases c <;> simp [Cmd.apply, Cmd.setsRebootBootloader]

theorem do_flashall_ok (env : Env) (f : String)
    (hok : Cmd.ok env (Cmd.flashall f)) : (do_flashall env f).2 = none := by
  obtain ⟨zd, z, hf, hz, hall⟩ := hok
  obtain ⟨d1, h1⟩ := hall (FW_DNX_BIN, "dnx") (by simp [manifest])
  obtain ⟨d2, h2⟩ := hall (IFWI_BIN, "ifwi") (by simp [manifest])
  obtain ⟨d3, h3⟩ := hall (NORMALOS_BIN, "boot") (by simp [manifest])
  obtain ⟨d4, h4⟩ := hall (PREOS_BIN, "preos") (by simp [manifest])
  obtain ⟨d5, h5⟩ := hall (PLATFORM_IMG, "platform") (by simp [manifest])
  simp [do_flashall, hf, hz, h1, h2, h3, h4, h5]

theorem parse_loop_cmd_step (env : Env) (c : Cmd) (ts : List String) (st : St)
    (hok : Cmd.ok env c) :
    parse_loop env (Cmd.tokens c ++ ts) st = parse_loop env ts (Cmd.apply env c st) := by
  cases c with
  | optS s => exact parse_loop_opt_s env s ts st
  | optI s =>
    obtain ⟨v, hv⟩ := hok
    rw [show Cmd.tokens (Cmd.optI s) ++ ts = "-i" :: s :: ts from rfl,
        parse_loop_opt_i, hv]
    simp [Cmd.apply, hv]
  | getvar v => exact parse_loop_getvar env v ts st
  | erase p => exact parse_loop_erase env p ts st
  | signature f =>
    obtain ⟨d, hd, hlen⟩ := hok
    rw [show Cmd.tokens (Cmd.signature f) ++ ts = "signature" :: f :: ts from rfl,
        parse_loop_signature, hd]
    simp [hlen, Cmd.apply, Cmd.effect, hd]
  | reboot => exact parse_loop_reboot env ts st
  | rebootBootloader => exact parse_loop_reboot_bootloader env ts st
  | cont => exact parse_loop_continue env ts st
  | flash p f =>
    obtain ⟨d, hd⟩ := hok
    rw [show Cmd.tokens (Cmd.flash p f) ++ ts = "flash" :: p :: f :: ts from rfl,
        parse_loop_flash, hd]
    simp [Cmd.apply, Cmd.effect, hd]
  | flashall f =>
    have hsucc := do_flashall_ok env f hok
    rcases hdo : do_flashall env f with ⟨ops, e⟩
    rw [hdo] at hsucc
    simp only at hsucc
    subst hsucc
    rw [show Cmd.tokens (Cmd.flashall f) ++ ts = "flashall" :: f :: ts from rfl,
        parse_loop_flashall, hdo]
    simp [Cmd.apply, hdo]

theorem parse_loop_cmds (env : Env) (cs : List Cmd) (st : St)
    (hok : ∀ c ∈ cs, Cmd.ok env c) :
    parse_loop env (cs.flatMap Cmd.tokens) st =
      (cs.foldl (fun s c => Cmd.apply env c s) st, none) := by
  induction cs generalizing st with
  | nil => simp [parse_loop]
  | cons c cs ih =>
    rw [List.flatMap_cons, parse_loop_cmd_step env c _ st (hok c (by simp)),
        List.foldl_cons]
    exact ih _ (fun c2 hc2 => hok c2 (by simp [hc2]))

theorem foldl_apply_queue (env : Env) (cs : List Cmd) (st : St) :
    (cs.foldl (fun s c => Cmd.apply env c s) st).queue =
      st.queue ++ cs.flatMap (Cmd.effect env) := by
  induction cs generalizing st with
  | nil => simp
  | cons c cs ih => simp [ih, Cmd.apply_queue, List.append_assoc]

theorem foldl_apply_wr (env : Env) (cs : List Cmd) (st : St) :
    (cs.foldl (fun s c => Cmd.apply env c s) st).wants_reboot =
      (st.wants_reboot || cs.any Cmd.setsReboot) := by
  induction cs generalizing st with
  | nil => simp
  | cons c cs ih => simp [ih, Cmd.apply_wr, Bool.or_assoc]

theorem foldl_apply_wrb (env : Env) (cs : List Cmd) (st : St) :
    (cs.foldl (fun s c => Cmd.apply env c s) st).wants_reboot_bootloader =
      (st.wants_reboot_bootloader || cs.any Cmd.setsRebootBootloader) := by
  induction cs generalizing st with
  | nil => simp
  | cons c cs ih => simp [ih, Cmd.apply_wrb, Bool.or_assoc]

theorem Cmd.tokens_shape (c : Cmd) :
    ∃ a t, Cmd.tokens c = a :: t ∧ a ≠ "devices" ∧ a ≠ "help" := by
  cases c <;> exact ⟨_, _, rfl, by decide, by decide⟩

theorem fastboot_main_dispatch (env : Env) (a : String) (rest : List String)
    (h1 : a ≠ "devices") (h2 : a ≠ "help") :
    fastboot_main env (a :: rest) =
      match parse_loop env (a :: rest) { initSt with serial := env.android_serial } with
      | (st, some Exit.usage) => MainResult.usageError st
      | (st, some (Exit.fatal m)) => MainResult.fatal m st
      | (st, none) => MainResult.run (resolve_reboot st) := by
  simp [fastboot_main, h1, h2]

/-!
## Claim theorems
-/

/-- Claim C2: `match_fastboot` accepts a descriptor exactly when the vendor
is the nonzero `-i` override or on the fixed whitelist, the interface triple
is `(0xff, 0x42, 0x03)`, and the serial filter is unset or equal
byte-for-byte to the descriptor serial. -/
theorem match_fastboot_accepts_iff (vid : Nat) (ser : Option String)
    (info : UsbIfcInfo) :
    match_fastboot vid ser info = 0 ↔
      (((vid ≠ 0 ∧ info.dev_vendor = vid) ∨ info.dev_vendor ∈ whitelist) ∧
       (info.ifc_class = 0xff ∧ info.ifc_subclass = 0x42 ∧
        info.ifc_protocol = 0x03) ∧
       (ser = none ∨ ser = some info.serial_number)) := by
  cases ser with
  | none =>
    simp only [match_fastboot, whitelist]
    split_ifs <;> simp_all
    all_goals tauto
  | some s =>
    simp only [match_fastboot, whitelist]
    split_ifs <;> simp_all
    all_goals tauto

/-- The rounded significand is at least the truncated one. -/
theorem roundSig_ge (P e : Nat) : P / 2 ^ e ≤ roundSig P e := by
  unfold roundSig
  split_ifs <;> omega

/-- The rounded significand exceeds the truncated one by at most one. -/
theorem roundSig_le (P e : Nat) : roundSig P e ≤ P / 2 ^ e + 1 := by
  unfold roundSig
  split_ifs <;> omega

/-- Truncating the rounded product never drops below any lower bound `c`
whose scaled form sits under the exact product. -/
theorem unzip_round_lower (P e c : Nat) (he : e ≤ 52) (hc : c * 2 ^ 52 ≤ P) :
    c ≤ unzip_round P e := by
  unfold unzip_round
  rw [if_pos he]
  have hsplit : (2 : Nat) ^ (52 - e) * 2 ^ e = 2 ^ 52 := by
    rw [← pow_add]
    congr 1
    omega
  have h1 : c * 2 ^ (52 - e) ≤ P / 2 ^ e := by
    rw [Nat.le_div_iff_mul_le (Nat.two_pow_pos e)]
    calc c * 2 ^ (52 - e) * 2 ^ e = c * 2 ^ 52 := by rw [Nat.mul_assoc, hsplit]
      _ ≤ P := hc
  exact (Nat.le_div_iff_mul_le (Nat.two_pow_pos _)).mpr
    (le_trans h1 (roundSig_ge P e))

/-- Truncating the rounded product exceeds the truncated exact product by
at most one. -/
theorem unzip_round_upper (P e : Nat) (he : e ≤ 52) :
    unzip_round P e ≤ P / 2 ^ 52 + 1 := by
  unfold unzip_round
  rw [if_pos he]
  have hsplit : (2 : Nat) ^ e * 2 ^ (52 - e) = 2 ^ 52 := by
    rw [← pow_add]
    congr 1
    omega
  calc roundSig P e / 2 ^ (52 - e)
      ≤ (P / 2 ^ e + 2 ^ (52 - e)) / 2 ^ (52 - e) := by
        apply Nat.div_le_div_right
        have := Nat.two_pow_pos (52 - e)
        have := roundSig_le P e
        omega
    _ = P / 2 ^ e / 2 ^ (52 - e) + 1 := Nat.add_div_right _ (Nat.two_pow_pos _)
    _ = P / 2 ^ 52 + 1 := by rw [Nat.div_div_eq_div_mul, hsplit]

/-- `log2floor` respects power-of-two upper bounds. -/
theorem log2floor_le (fuel : Nat) :
    ∀ k n : Nat, n < 2 ^ (k + 1) → log2floor fuel n ≤ k := by
  induction fuel with
  | zero =>
    intro k n _
    exact Nat.zero_le k
  | succ fuel ih =>
    intro k n hn
    simp only [log2floor]
    split_ifs with h2
    · exact Nat.zero_le k
    · cases k with
      | zero =>
        norm_num at hn
        omega
      | succ k =>
        have hpow : (2 : Nat) ^ (k + 1 + 1) = 2 ^ (k + 1) * 2 := pow_succ 2 (k + 1)
        rw [hpow] at hn
        have hhalf : n / 2 < 2 ^ (k + 1) := by omega
        have := ih k (n / 2) hhalf
        omega

/-- Claim C9, counterexample: for the nonzero nominal size 1 the
decompression buffer capacity `datasz = sz * 1.001` truncates back to 1, so
it is not strictly greater than the size; the same happens at size 1000,
since the double nearest 1.001 lies just below it. -/
theorem unzip_datasz_one :
    unzip_datasz 1 = 1 ∧ ¬ 1 < unzip_datasz 1 ∧ unzip_datasz 1000 = 1000 := by
  decide

/-- Claim C9, amended: for every size in the 32-bit range of `*sz`, the
buffer capacity is at least the nominal size and overshoots it by at most
`size / 1000 + 1`, but is not strictly greater for every nonzero size
(sizes 1 and 1000 give back exactly the size). -/
theorem unzip_datasz_headroom (sz : Nat) (h : sz < 2 ^ 32) :
    sz ≤ unzip_datasz sz ∧ unzip_datasz sz ≤ sz + sz / 1000 + 1 := by
  have hP85 : sz * double1001_mant < 2 ^ 85 := by
    unfold double1001_mant
    calc sz * 4508103226997866 < 2 ^ 32 * 4508103226997866 :=
          (Nat.mul_lt_mul_right (by norm_num)).mpr h
      _ < 2 ^ 85 := by norm_num
  have hlog : log2floor 128 (sz * double1001_mant) ≤ 84 :=
    log2floor_le 128 84 _ hP85
  have he52 : log2floor 128 (sz * double1001_mant) - 52 ≤ 52 := by omega
  unfold unzip_datasz
  constructor
  · apply unzip_round_lower _ _ _ he52
    have hm : (2 : Nat) ^ 52 ≤ double1001_mant := by
      unfold double1001_mant
      norm_num
    exact Nat.mul_le_mul_left sz hm
  · have hub := unzip_round_upper (sz * double1001_mant) _ he52
    have hP : sz * double1001_mant / 2 ^ 52 ≤ sz + sz / 1000 := by
      unfold double1001_mant
      have hexp : sz * 4508103226997866 = sz * 4503599627370 + 2 ^ 52 * sz := by
        have h4 : (4508103226997866 : Nat) = 4503599627370 + 2 ^ 52 := by
          norm_num
        rw [h4]
        ring
      rw [hexp, Nat.add_mul_div_left _ _ (Nat.two_pow_pos 52)]
      have hfrac : sz * 4503599627370 / 2 ^ 52 ≤ sz / 1000 := by
        have h1 : sz * 4503599627370 / 2 ^ 52 =
            sz * 4503599627370 * 1000 / (2 ^ 52 * 1000) :=
          (Nat.mul_div_mul_right _ _ (by norm_num)).symm
        have h2 : sz * 4503599627370 * 1000 ≤ sz * 2 ^ 52 := by
          have h3 : (4503599627370 : Nat) * 1000 ≤ 2 ^ 52 := by norm_num
          calc sz * 4503599627370 * 1000 = sz * (4503599627370 * 1000) := by
                ring
            _ ≤ sz * 2 ^ 52 := Nat.mul_le_mul_left sz h3
        calc sz * 4503599627370 / 2 ^ 52
            = sz * 4503599627370 * 1000 / (2 ^ 52 * 1000) := h1
          _ ≤ sz * 2 ^ 52 / (2 ^ 52 * 1000) := Nat.div_le_div_right h2
          _ = sz / 1000 := by
              rw [Nat.mul_comm (2 ^ 52) 1000,
                  show sz * 2 ^ 52 / (1000 * 2 ^ 52) = sz / 1000 from
                    Nat.mul_div_mul_right _ _ (Nat.two_pow_pos 52)]
      omega
    omega

/-- Witness for C9's amended bound at size 3000, where the rounded scaling
genuinely overshoots (capacity 3002). -/
theorem unzip_datasz_headroom_witness :
    3000 ≤ unzip_datasz 3000 ∧ unzip_datasz 3000 ≤ 3000 + 3000 / 1000 + 1 :=
  unzip_datasz_headroom 3000 (by decide)

/-- Claim C8, amended: with at least one token after `oem` the loop consumes
everything and appends exactly one `Command` whose string space-joins the
stream from the `oem` token itself onward, with empty description; with
`oem` as the last token nothing is appended. -/
theorem oem_builder_effect (env : Env) (w : String) (ws : List String) (st : St) :
    parse_loop env ("oem" :: w :: ws) st =
      ({ st with queue := st.queue ++
          [Op.Command (String.intercalate " " ("oem" :: w :: ws)) ""] }, none) ∧
    parse_loop env ["oem"] st = (st, none) :=
  ⟨parse_loop_oem env w ws st, rfl⟩

/-- Claim C8, counterexample: on the stream `["oem"]` the builder appends no
operation at all, not exactly one `Command`. -/
theorem oem_alone_appends_nothing :
    parse_loop envW ["oem"] initSt = (initSt, none) ∧ initSt.queue = [] :=
  ⟨rfl, rfl⟩

/-- Claim C10, counterexample: in `["getvar", "devices"]` the `devices`
token is consumed as the argument of `getvar` and the process proceeds to
run the queue, instead of printing usage and exiting 1. -/
theorem getvar_consumes_devices_token :
    fastboot_main envW ["getvar", "devices"] =
      MainResult.run { initSt with queue := [Op.Display "devices" "devices"] } := rfl

/-- Claim C10, amended: `devices` and `help` are recognized only as the very
first token; when either reaches the command loop in command position it is
unrecognized (usage, exit 1) -- in particular after a `-s` pair -- but a
preceding command may instead consume it as an argument. -/
theorem devices_help_first_token_only (env : Env) (s : String)
    (rest rest2 : List String) (st : St) :
    parse_loop env ("devices" :: rest) st = (st, some Exit.usage) ∧
    parse_loop env ("help" :: rest) st = (st, some Exit.usage) ∧
    fastboot_main env ("devices" :: rest) = MainResult.devicesListed ∧
    fastboot_main env ("help" :: rest) = MainResult.helpShown ∧
    fastboot_main env ("-s" :: s :: "devices" :: rest2) =
      MainResult.usageError { initSt with serial := some s } := by
  refine ⟨by cases rest <;> rfl, by cases rest <;> rfl, rfl, rfl, ?_⟩
  rw [fastboot_main_dispatch env "-s" _ (by decide) (by decide),
      parse_loop_opt_s]
  have hdev : parse_loop env ("devices" :: rest2)
      { initSt with serial := some s } =
      ({ initSt with serial := some s }, some Exit.usage) := by
    cases rest2 <;> rfl
  rw [hdev]

/-- Claim C3: with every manifest entry present, `do_flashall` queues the
two informational `Display` operations bracketed by `Notice` separators
before any `Flash`, then exactly five `Flash` operations in the fixed
manifest order `dnx`, `ifwi`, `boot`, `preos`, `platform`. -/
theorem flashall_plan_order (env : Env) (fn : String) (zd : List Nat)
    (z : String → Option (List Nat)) (d1 d2 d3 d4 d5 : List Nat)
    (hf : env.files fn = some zd) (hz : env.init_zipfile zd = some z)
    (h1 : unzip_file z FW_DNX_BIN = some d1)
    (h2 : unzip_file z IFWI_BIN = some d2)
    (h3 : unzip_file z NORMALOS_BIN = some d3)
    (h4 : unzip_file z PREOS_BIN = some d4)
    (h5 : unzip_file z PLATFORM_IMG = some d5) :
    do_flashall env fn =
      ([Op.Notice sepLine,
        Op.Display "preos" "Current Pre-OS Version ",
        Op.Display "ifwi" "Current IFWI Version   ",
        Op.Notice sepLine,
        Op.Flash "dnx" d1, Op.Flash "ifwi" d2, Op.Flash "boot" d3,
        Op.Flash "preos" d4, Op.Flash "platform" d5], none) := by
  simp [do_flashall, queue_info_dump, hf, hz, h1, h2, h3, h4, h5]

/-- Witness for C3 at a concrete complete archive. -/
theorem flashall_plan_order_witness :
    do_flashall envW "pkg.zip" =
      ([Op.Notice sepLine,
        Op.Display "preos" "Current Pre-OS Version ",
        Op.Display "ifwi" "Current IFWI Version   ",
        Op.Notice sepLine,
        Op.Flash "dnx" [1, 2], Op.Flash "ifwi" [3], Op.Flash "boot" [4, 4],
        Op.Flash "preos" [5], Op.Flash "platform" [6, 6, 6]], none) :=
  flashall_plan_order envW "pkg.zip" [9] zipW [1, 2] [3] [4, 4] [5] [6, 6, 6]
    rfl rfl rfl rfl rfl rfl rfl

/-- Claim C6: `signature` with a loadable file dies with
`"signature must be 256 bytes"` and appends nothing unless the file is
exactly 256 bytes, in which case it appends a `Download` immediately
followed by a `Command`. -/
theorem signature_requires_256_bytes (env : Env) (f : String)
    (rest : List String) (st : St) (d : List Nat)
    (hd : env.files f = some d) :
    (d.length ≠ 256 →
      parse_loop env ("signature" :: f :: rest) st =
        (st, some (Exit.fatal "signature must be 256 bytes"))) ∧
    (d.length = 256 →
      parse_loop env ("signature" :: f :: rest) st =
        parse_loop env rest
          { st with queue := st.queue ++
              [Op.Download "signature" d,
               Op.Command "signature" "installing signature"] }) := by
  constructor <;> intro h <;> rw [parse_loop_signature, hd] <;> simp [h]

/-- Witness for C6: a 255-byte signature dies, a 256-byte one queues the
pair. -/
theorem signature_requires_256_bytes_witness :
    parse_loop envW ["signature", "short.sig"] initSt =
      (initSt, some (Exit.fatal "signature must be 256 bytes")) ∧
    parse_loop envW ["signature", "sig.bin"] initSt =
      parse_loop envW []
        { initSt with queue := initSt.queue ++
            [Op.Download "signature" sig256,
             Op.Command "signature" "installing signature"] } :=
  ⟨(signature_requires_256_bytes envW "short.sig" [] initSt
      (List.replicate 255 0) rfl).1 (by rw [List.length_replicate]; decide),
   (signature_requires_256_bytes envW "sig.bin" [] initSt sig256 rfl).2
      (by rw [show sig256 = List.replicate 256 0 from rfl, List.length_replicate])⟩

/-- Claim C7: `-i` dies with the invalid-vendor-id diagnostic, leaving the
queue untouched, exactly when `strtoul` cannot consume the whole argument
to a value below `0x10000`; otherwise the filter vendor id is set to the
parsed value. -/
theorem vendor_id_option_check (env : Env) (s : String) (rest : List String)
    (st : St) :
    (parse_i s = none →
      parse_loop env ("-i" :: s :: rest) st =
        (st, some (Exit.fatal ("invalid vendor id " ++ quoted s))) ∧
      fastboot_main env ("-i" :: s :: rest) =
        MainResult.fatal ("invalid vendor id " ++ quoted s)
          { initSt with serial := env.android_serial }) ∧
    (∀ v, parse_i s = some v →
      v < 0x10000 ∧
      parse_loop env ("-i" :: s :: rest) st =
        parse_loop env rest { st with vendor_id := v }) := by
  constructor
  · intro h
    constructor
    · rw [parse_loop_opt_i, h]
    · rw [fastboot_main_dispatch env "-i" _ (by decide) (by decide),
          parse_loop_opt_i, h]
  · intro v hv
    constructor
    · have hv2 := hv
      simp only [parse_i] at hv2
      split_ifs at hv2 with hc
      · cases hv2
        exact hc.2
    · rw [parse_loop_opt_i, hv]

/-- Witness for C7: `-i zzz` dies before any queue construction,
`-i 0x18d1` sets the vendor id. -/
theorem vendor_id_option_check_witness :
    (parse_loop envW ["-i", "zzz"] initSt =
       (initSt, some (Exit.fatal ("invalid vendor id " ++ quoted "zzz"))) ∧
     fastboot_main envW ["-i", "zzz"] =
       MainResult.fatal ("invalid vendor id " ++ quoted "zzz")
         { initSt with serial := envW.android_serial }) ∧
    (6353 < 0x10000 ∧
     parse_loop envW ["-i", "0x18d1"] initSt =
       parse_loop envW [] { initSt with vendor_id := 6353 }) :=
  ⟨(vendor_id_option_check envW "zzz" [] initSt).1 rfl,
   (vendor_id_option_check envW "0x18d1" [] initSt).2 6353 rfl⟩

/-- Claim C4: with the archive loadable but a manifest entry missing,
`do_flashall` dies at the first missing entry with a message naming it,
queues the info header plus exactly the `Flash` operations of the entries
before it (no rollback, nothing for the missing or later entries), and
`main` exits fatally so the queue is never executed. -/
theorem flashall_missing_entry (env : Env) (fn : String) (zd : List Nat)
    (z : String → Option (List Nat)) (k : Nat) (ds : Nat → List Nat)
    (rest : List String)
    (hf : env.files fn = some zd) (hz : env.init_zipfile zd = some z)
    (hk : k < 5)
    (hmiss : z (manifest.getD k ("", "")).1 = none)
    (hpres : ∀ j, j < k → z (manifest.getD j ("", "")).1 = some (ds j)) :
    (do_flashall env fn).2 =
      some (Exit.fatal ("package missing " ++ (manifest.getD k ("", "")).1 ++
        (if 3 ≤ k then "\n" else ""))) ∧
    (do_flashall env fn).1 = queue_info_dump ++
      (List.range k).map
        (fun j => Op.Flash (manifest.getD j ("", "")).2 (ds j)) ∧
    fastboot_main env ("flashall" :: fn :: rest) =
      MainResult.fatal
        ("package missing " ++ (manifest.getD k ("", "")).1 ++
          (if 3 ≤ k then "\n" else ""))
        { initSt with serial := env.android_serial,
                      queue := (do_flashall env fn).1 } := by
  interval_cases k
  · -- first missing entry is index 0: FW_DNX_BIN
    have hm : z FW_DNX_BIN = none := hmiss
    have hdo : do_flashall env fn =
        (queue_info_dump,
         some (Exit.fatal ("package missing " ++ FW_DNX_BIN))) := by
      simp [do_flashall, unzip_file, hf, hz, hm]
    refine ⟨by rw [hdo]; rfl, by rw [hdo]; rfl, ?_⟩
    rw [fastboot_main_dispatch env "flashall" _ (by decide) (by decide),
        parse_loop_flashall, hdo]
    rfl
  · -- first missing entry is index 1: IFWI_BIN
    have h0 : z FW_DNX_BIN = some (ds 0) := hpres 0 (by omega)
    have hm : z IFWI_BIN = none := hmiss
    have hdo : do_flashall env fn =
        (queue_info_dump ++ [Op.Flash "dnx" (ds 0)],
         some (Exit.fatal ("package missing " ++ IFWI_BIN))) := by
      simp [do_flashall, unzip_file, hf, hz, h0, hm]
    refine ⟨by rw [hdo]; rfl, by rw [hdo]; rfl, ?_⟩
    rw [fastboot_main_dispatch env "flashall" _ (by decide) (by decide),
        parse_loop_flashall, hdo]
    rfl
  · -- first missing entry is index 2: NORMALOS_BIN
    have h0 : z FW_DNX_BIN = some (ds 0) := hpres 0 (by omega)
    have h1 : z IFWI_BIN = some (ds 1) := hpres 1 (by omega)
    have hm : z NORMALOS_BIN = none := hmiss
    have hdo : do_flashall env fn =
        (queue_info_dump ++ [Op.Flash "dnx" (ds 0), Op.Flash "ifwi" (ds 1)],
         some (Exit.fatal ("package missing " ++ NORMALOS_BIN))) := by
      simp [do_flashall, unzip_file, hf, hz, h0, h1, hm]
    refine ⟨by rw [hdo]; rfl, by rw [hdo]; rfl, ?_⟩
    rw [fastboot_main_dispatch env "flashall" _ (by decide) (by decide),
        parse_loop_flashall, hdo]
    rfl
  · -- first missing entry is index 3: PREOS_BIN
    have h0 : z FW_DNX_BIN = some (ds 0) := hpres 0 (by omega)
    have h1 : z IFWI_BIN = some (ds 1) := hpres 1 (by omega)
    have h2 : z NORMALOS_BIN = some (ds 2) := hpres 2 (by omega)
    have hm : z PREOS_BIN = none := hmiss
    have hdo : do_flashall env fn =
        (queue_info_dump ++ [Op.Flash "dnx" (ds 0), Op.Flash "ifwi" (ds 1), Op.Flash "boot" (ds 2)],
         some (Exit.fatal ("package missing " ++ PREOS_BIN ++ "\n"))) := by
      simp [do_flashall, unzip_file, hf, hz, h0, h1, h2, hm]
    refine ⟨by rw [hdo]; rfl, by rw [hdo]; rfl, ?_⟩
    rw [fastboot_main_dispatch env "flashall" _ (by decide) (by decide),
        parse_loop_flashall, hdo]
    rfl
  · -- first missing entry is index 4: PLATFORM_IMG
    have h0 : z FW_DNX_BIN = some (ds 0) := hpres 0 (by omega)
    have h1 : z IFWI_BIN = some (ds 1) := hpres 1 (by omega)
    have h2 : z NORMALOS_BIN = some (ds 2) := hpres 2 (by omega)
    have h3 : z PREOS_BIN = some (ds 3) := hpres 3 (by omega)
    have hm : z PLATFORM_IMG = none := hmiss
    have hdo : do_flashall env fn =
        (queue_info_dump ++ [Op.Flash "dnx" (ds 0), Op.Flash "ifwi" (ds 1), Op.Flash "boot" (ds 2), Op.Flash "preos" (ds 3)],
         some (Exit.fatal ("package missing " ++ PLATFORM_IMG ++ "\n"))) := by
      simp [do_flashall, unzip_file, hf, hz, h0, h1, h2, h3, hm]
    refine ⟨by rw [hdo]; rfl, by rw [hdo]; rfl, ?_⟩
    rw [fastboot_main_dispatch env "flashall" _ (by decide) (by decide),
        parse_loop_flashall, hdo]
    rfl

/-- Witness for C4: `bad.zip` contains `dnx.bin` but lacks `ifwi.bin`; the
plan dies naming `ifwi.bin` with only the header and the `dnx` flash
queued, and `main` ends fatally. -/
theorem flashall_missing_entry_witness :
    (do_flashall envM "bad.zip").2 =
      some (Exit.fatal ("package missing " ++ (manifest.getD 1 ("", "")).1 ++
        (if 3 ≤ 1 then "\n" else ""))) ∧
    (do_flashall envM "bad.zip").1 = queue_info_dump ++
      (List.range 1).map
        (fun j => Op.Flash (manifest.getD j ("", "")).2
          ((fun _ => [7]) j)) ∧
    fastboot_main envM ["flashall", "bad.zip"] =
      MainResult.fatal
        ("package missing " ++ (manifest.getD 1 ("", "")).1 ++
          (if 3 ≤ 1 then "\n" else ""))
        { initSt with serial := envM.android_serial,
                      queue := (do_flashall envM "bad.zip").1 } :=
  flashall_missing_entry envM "bad.zip" [8] zipM 1 (fun _ => [7]) []
    rfl rfl (by decide) rfl
    (fun j hj => by
      have hj0 : j = 0 := by omega
      subst hj0
      rfl)

/-- Claim C5: after the loop finishes, at most one trailing reboot
operation is appended -- `Reboot` when the plain-reboot intent is set,
otherwise `Command("reboot-bootloader", ...)` when that intent is set,
otherwise nothing; plain reboot wins, the loop itself never queued a
`Reboot`, and the final queue holds at most one `Reboot` even when both
`reboot` and `flashall` requested it. -/
theorem reboot_trailer_resolved (env : Env) (args : List String) (st0 st : St)
    (h : parse_loop env args st0 = (st, none)) (h0 : Op.Reboot ∉ st0.queue) :
    (resolve_reboot st).queue =
      st.queue ++ rebootTrailerFlags st.wants_reboot st.wants_reboot_bootloader ∧
    (rebootTrailerFlags st.wants_reboot st.wants_reboot_bootloader).length ≤ 1 ∧
    Op.Reboot ∉ st.queue ∧
    (resolve_reboot st).queue.countP (fun o => decide (o = Op.Reboot)) ≤ 1 := by
  have hfree : Op.Reboot ∉ st.queue := by
    have hx := parse_loop_reboot_free env args st0 h0
    rw [h] at hx
    exact hx
  refine ⟨resolve_reboot_queue st, rebootTrailerFlags_length _ _, hfree, ?_⟩
  rw [resolve_reboot_queue, List.countP_append]
  have hq : st.queue.countP (fun o => decide (o = Op.Reboot)) = 0 := by
    rw [List.countP_eq_zero]
    intro a ha
    simp only [decide_eq_true_eq]
    intro hEq
    exact hfree (hEq ▸ ha)
  rw [hq]
  unfold rebootTrailerFlags
  split_ifs <;> simp

/-- Witness for C5 at `reboot flashall pkg.zip`: both commands request the
plain reboot, yet exactly one `Reboot` trails the queue. -/
theorem reboot_trailer_resolved_witness :
    (resolve_reboot stC5).queue =
      stC5.queue ++ rebootTrailerFlags stC5.wants_reboot stC5.wants_reboot_bootloader ∧
    (rebootTrailerFlags stC5.wants_reboot stC5.wants_reboot_bootloader).length ≤ 1 ∧
    Op.Reboot ∉ stC5.queue ∧
    (resolve_reboot stC5).queue.countP (fun o => decide (o = Op.Reboot)) ≤ 1 :=
  reboot_trailer_resolved envW ["reboot", "flashall", "pkg.zip"] initSt stC5
    rfl (by decide)

/-- Claim C1: a command line made only of recognized commands with correct
arity (and satisfied side conditions) parses to exactly the left-to-right
concatenation of each command's per-table queue effect, with the deferred
reboot intent resolved into at most one trailing operation after all
others. -/
theorem cli_queue_matches_table (env : Env) (cs : List Cmd) (hne : cs ≠ [])
    (hok : ∀ c ∈ cs, Cmd.ok env c) :
    ∃ st, fastboot_main env (cs.flatMap Cmd.tokens) = MainResult.run st ∧
      st.queue = cs.flatMap (Cmd.effect env) ++
        rebootTrailerFlags (cs.any Cmd.setsReboot)
          (cs.any Cmd.setsRebootBootloader) ∧
      (rebootTrailerFlags (cs.any Cmd.setsReboot)
        (cs.any Cmd.setsRebootBootloader)).length ≤ 1 := by
  cases cs with
  | nil => exact absurd rfl hne
  | cons c cs2 =>
    obtain ⟨a, t, htok, ha1, ha2⟩ := Cmd.tokens_shape c
    have hloop := parse_loop_cmds env (c :: cs2)
      { initSt with serial := env.android_serial } hok
    have hargs : (c :: cs2).flatMap Cmd.tokens =
        a :: (t ++ cs2.flatMap Cmd.tokens) := by
      rw [List.flatMap_cons, htok]
      rfl
    rw [hargs] at hloop ⊢
    rw [fastboot_main_dispatch env a _ ha1 ha2, hloop]
    refine ⟨_, rfl, ?_, rebootTrailerFlags_length _ _⟩
    rw [resolve_reboot_queue, foldl_apply_queue, foldl_apply_wr, foldl_apply_wrb]
    simp [initSt]

/-- Witness for C1 at `getvar x flash boot boot.img reboot`. -/
theorem cli_queue_matches_table_witness :
    ∃ st, fastboot_main envW
        ([Cmd.getvar "x", Cmd.flash "boot" "boot.img",
          Cmd.reboot].flatMap Cmd.tokens) = MainResult.run st ∧
      st.queue = [Cmd.getvar "x", Cmd.flash "boot" "boot.img",
          Cmd.reboot].flatMap (Cmd.effect envW) ++
        rebootTrailerFlags
          ([Cmd.getvar "x", Cmd.flash "boot" "boot.img",
            Cmd.reboot].any Cmd.setsReboot)
          ([Cmd.getvar "x", Cmd.flash "boot" "boot.img",
            Cmd.reboot].any Cmd.setsRebootBootloader) ∧
      (rebootTrailerFlags
          ([Cmd.getvar "x", Cmd.flash "boot" "boot.img",
            Cmd.reboot].any Cmd.setsReboot)
          ([Cmd.getvar "x", Cmd.flash "boot" "boot.img",
            Cmd.reboot].any Cmd.setsRebootBootloader)).length ≤ 1 :=
  cli_queue_matches_table envW
    [Cmd.getvar "x", Cmd.flash "boot" "boot.img", Cmd.reboot]
    (List.cons_ne_nil _ _)
    (by
      intro c hc
      fin_cases hc
      · trivial
      · exact ⟨[1, 2, 3], rfl⟩
      · trivial)
